import Mathlib

/-!
Formal model of the Bank-Rates dashboard (shallow embedding).

Each Python class/function of the repository that the verified properties
concern is translated into an executable Lean definition.  Machine reals
(Python floats) are modelled by `ℚ`, Python `None`/`NaN` by `Option`,
Python exceptions by `Except PyError`, dict-shaped records by structures,
dicts used as ordered key/value maps by association lists, and pandas
date-indexed series by lists of (date, value) pairs with dates as `Nat`
ordinals.  External boundaries (HTTP responses, datetime parsing, numeric
parsing) are passed in as explicit parameters.
-/

/-- Python exceptions that the modelled code can raise. -/
inductive PyError where
  | attributeError (msg : String)
  | indexError
  | keyError (key : String)
deriving DecidableEq, Repr

/-- Equality of modelled call results is decidable. -/
instance exceptDecEq {e a : Type} [DecidableEq e] [DecidableEq a] :
    DecidableEq (Except e a) := fun x y =>
  match x, y with
  | .ok u, .ok v =>
    if h : u = v then isTrue (by rw [h]) else isFalse (fun hc => h (by injection hc))
  | .error u, .error v =>
    if h : u = v then isTrue (by rw [h]) else isFalse (fun hc => h (by injection hc))
  | .ok _, .error _ => isFalse (fun hc => Except.noConfusion hc)
  | .error _, .ok _ => isFalse (fun hc => Except.noConfusion hc)

/-! ## FredSeries (app/data_service/fetchers/fetch_rates.py) -/

/-- One entry of the payload's `observations` list: a record with a raw
date string and a raw value string. -/
structure Observation where
  date : String
  value : String
deriving DecidableEq, Repr

/-- The decoded JSON payload returned by the FRED API.  An absent
`observations` key is modelled by the empty list (the source reads it with
`payload.get('observations', [])`). -/
structure Payload where
  observations : List Observation
deriving DecidableEq, Repr

/-- Row produced for one observation: parsed date (`pd.to_datetime` with
`errors='coerce'`, `none` = NaT) and parsed value (`pd.to_numeric` with
`errors='coerce'`, `none` = NaN, the missing-value sentinel). -/
def parseObservation (parseDate : String → Option Nat) (parseNum : String → Option ℚ)
    (o : Observation) : Option Nat × Option ℚ :=
  (parseDate o.date, parseNum o.value)

/-- Ascending order on parsed dates; a missing date (NaT) sorts last,
as in pandas `sort_index`. -/
def dateLE : Option Nat → Option Nat → Prop
  | _, none => True
  | none, some _ => False
  | some a, some b => a ≤ b

instance dateLE.instDecRel : DecidableRel dateLE := fun a b =>
  match a, b with
  | none, none => isTrue trivial
  | some _, none => isTrue trivial
  | none, some _ => isFalse (fun h => h)
  | some x, some y => Nat.decLe x y

/-- Row order used by `sort_index`: compare the date component. -/
def rowLE (a b : Option Nat × Option ℚ) : Prop := dateLE a.1 b.1

instance rowLE.instDecRel : DecidableRel rowLE := fun a b => dateLE.instDecRel a.1 b.1

instance dateLE.instTotal : IsTotal (Option Nat) dateLE where
  total a b := by
    cases a <;> cases b <;> simp [dateLE]
    exact Nat.le_total _ _

instance dateLE.instTrans : IsTrans (Option Nat) dateLE where
  trans a b c hab hbc := by
    cases a <;> cases b <;> cases c <;> simp [dateLE] at *
    omega

instance rowLE.instTotal : IsTotal (Option Nat × Option ℚ) rowLE where
  total a b := dateLE.instTotal.total a.1 b.1

instance rowLE.instTrans : IsTrans (Option Nat × Option ℚ) rowLE where
  trans a b c hab hbc := dateLE.instTrans.trans a.1 b.1 c.1 hab hbc

namespace FredSeries

/-- FredSeries._process_data on a (non-None) payload: turn the
`observations` list into a date-indexed, date-sorted `value` column; an
empty (or absent) `observations` list yields an empty frame.  The sort is
modelled by a sort that is correct for any tie-breaking, as is pandas
`sort_index`. -/
def processPayload (parseDate : String → Option Nat) (parseNum : String → Option ℚ)
    (payload : Payload) : List (Option Nat × Option ℚ) :=
  if payload.observations.isEmpty then []
  else List.insertionSort rowLE (payload.observations.map (parseObservation parseDate parseNum))

/-- FredSeries._process_data as called by run_pipeline: its `payload`
argument is the result of `_fetch_data`, which is `None` on any request
failure.  `None.get('observations', [])` raises `AttributeError`. -/
def processData (parseDate : String → Option Nat) (parseNum : String → Option ℚ) :
    Option Payload → Except PyError (List (Option Nat × Option ℚ))
  | none => .error (.attributeError "NoneType object has no attribute get")
  | some payload => .ok (processPayload parseDate parseNum payload)

/-- FredSeries._is_env_valid: both the api key and the source url must be
non-empty (truthy). -/
def isEnvValid (apiKey source : String) : Bool :=
  !apiKey.isEmpty && !source.isEmpty

/-- FredSeries.run_pipeline.  `fetched` is the value returned by
`_fetch_data(self.source, params)`: the decoded JSON payload on success,
`None` on transport failure / HTTP error status / non-JSON body (all of
which `_fetch_data` catches, logs and converts to `None`). -/
def runPipeline (parseDate : String → Option Nat) (parseNum : String → Option ℚ)
    (apiKey source : String) (fetched : Option Payload) :
    Except PyError (List (Option Nat × Option ℚ)) :=
  if isEnvValid apiKey source then processData parseDate parseNum fetched
  else .ok []

end FredSeries

/-! ## SessionStateManager (app/auth/session_manager.py) -/

/-- A notification/error-history entry as built by `add_notification`: a
Python dict with message, type, timestamp and id keys.  Timestamps are in
seconds (`datetime` differences are taken with `.total_seconds()`). -/
structure Notification where
  message : String
  ntype : String
  timestamp : ℚ
  id : Nat
deriving DecidableEq, Repr

namespace SessionStateManager

/-- SessionStateManager.add_notification applied to the current
notifications list: append a new entry stamped `now` with id = current
length. -/
def addNotification (now : ℚ) (notifications : List Notification)
    (message ntype : String) : List Notification :=
  notifications ++ [{ message := message, ntype := ntype, timestamp := now,
                      id := notifications.length }]

/-- Python `hasattr(entry, 'timestamp')` where `entry` is a plain dict:
`hasattr` looks up object attributes, never dict keys, so it is `False`
for every entry built by `add_notification`. -/
def dictHasAttrTimestamp (_entry : Notification) : Bool := false

/-- The per-list body of SessionStateManager.cleanup_old_data: keep an
entry only if `hasattr(entry, 'timestamp')` holds and its age in hours is
strictly below the threshold. -/
def cleanupEntries (now maxAgeHours : ℚ) (entries : List Notification) :
    List Notification :=
  entries.filter fun n =>
    dictHasAttrTimestamp n && decide ((now - n.timestamp) / 3600 < maxAgeHours)

/-- The part of the session state that `cleanup_old_data` touches. -/
structure SessionState where
  notifications : List Notification
  errorHistory : List Notification
deriving DecidableEq, Repr

/-- SessionStateManager.cleanup_old_data (default threshold 24 hours). -/
def cleanupOldData (now : ℚ) (maxAgeHours : ℚ) (s : SessionState) : SessionState :=
  { notifications := cleanupEntries now maxAgeHours s.notifications,
    errorHistory := cleanupEntries now maxAgeHours s.errorHistory }

end SessionStateManager

/-! ## FHLBScraper.parse_rates (app/data_service/scrapers/fhlb_scraper.py) -/

namespace FHLBScraper

/-- Python list indexing `cols[i]`: raises `IndexError` out of bounds. -/
def getCol (cols : List String) (i : Nat) : Except PyError String :=
  match cols.get? i with
  | some c => .ok c
  | none => .error .indexError

/-- Body of the row loop of parse_rates: rows with fewer than 2 cells are
skipped; otherwise cell 0 is the term and cell 2 the regular rate, kept
when both are non-empty and the rate contains a percent sign. -/
def parseRow (acc : List (String × String)) (cols : List String) :
    Except PyError (List (String × String)) :=
  if cols.length ≥ 2 then do
    let term ← getCol cols 0
    let regular ← getCol cols 2
    if term ≠ "" ∧ regular ≠ "" ∧ regular.contains '%' then
      pure (acc ++ [(term, regular)])
    else
      pure acc
  else
    pure acc

/-- FHLBScraper.parse_rates on an already-located table, given as the list
of its rows, each row the list of its cells' stripped texts.  The first
two rows (headers) are skipped. -/
def parseRates (rows : List (List String)) : Except PyError (List (String × String)) :=
  (rows.drop 2).foldlM parseRow []

end FHLBScraper

/-! ## UserPermissionManager (app/auth/auth_manager.py) -/

/-- The fields of one configured user that role resolution reads; the
`role` field is optional (`user_config.get('role', 'user')`). -/
structure UserRecord where
  role : Option String
deriving DecidableEq, Repr

/-- The `credentials.usernames` map of the configuration. -/
abbrev AuthConfig := List (String × UserRecord)

namespace UserPermissionManager

/-- UserPermissionManager.get_user_role: "guest" for the guest identity;
otherwise the configured role, defaulting to "user" when the username
(KeyError) or its role field is absent. -/
def getUserRole (config : AuthConfig) (username : String) : String :=
  if username = "guest" then "guest"
  else
    match config.lookup username with
    | some user => user.role.getD "user"
    | none => "user"

/-- The role→permissions dict of has_permission (`.get(role, [])`). -/
def rolePermissions (role : String) : List String :=
  if role = "admin" then
    ["view_data", "download_data", "create_custom_rates", "view_logs", "manage_users"]
  else if role = "power_user" then
    ["view_data", "download_data", "create_custom_rates"]
  else if role = "user" then
    ["view_data", "download_data"]
  else if role = "guest" then
    ["view_data", "download_data"]
  else []

/-- UserPermissionManager.has_permission. -/
def hasPermission (config : AuthConfig) (username permission : String) : Bool :=
  (rolePermissions (getUserRole config username)).contains permission

/-- The fixed role→permission table exactly as the specification words it
(admin holds all five; power_user holds view_data, download_data,
create_custom_rates; user and guest hold view_data and download_data);
stated independently of the code for comparison. -/
def specPermissionTable (role permission : String) : Bool :=
  (role == "admin" &&
    (permission == "view_data" || permission == "download_data" ||
     permission == "create_custom_rates" || permission == "view_logs" ||
     permission == "manage_users")) ||
  (role == "power_user" &&
    (permission == "view_data" || permission == "download_data" ||
     permission == "create_custom_rates")) ||
  ((role == "user" || role == "guest") &&
    (permission == "view_data" || permission == "download_data"))

end UserPermissionManager

/-! ## FRED registry (app/constants/fred.py) and DataProcessor
(app/data_service/data_processor.py) -/

/-- Metadata of one registry entry. -/
structure FredMeta where
  seriesId : String
  source : String
deriving DecidableEq, Repr

/-- FRED_SERIES_REGISTRY: the fixed 11-entry rate registry. -/
def FRED_SERIES_REGISTRY : List (String × FredMeta) :=
  [("Fed Funds Rate", ⟨"FEDFUNDS", "https://fred.stlouisfed.org/series/FEDFUNDS"⟩),
   ("Prime Rate", ⟨"MPRIME", "https://fred.stlouisfed.org/series/MPRIME"⟩),
   ("SOFR", ⟨"SOFR", "https://fred.stlouisfed.org/series/SOFR"⟩),
   ("30-Day Average SOFR", ⟨"SOFR30DAYAVG", "https://fred.stlouisfed.org/series/SOFR30DAYAVG"⟩),
   ("1 Yr Treasury Constant Maturity", ⟨"GS1", "https://fred.stlouisfed.org/series/GS1"⟩),
   ("2 Yr Treasury Constant Maturity", ⟨"GS2", "https://fred.stlouisfed.org/series/GS2"⟩),
   ("3 Yr Treasury Constant Maturity", ⟨"GS3", "https://fred.stlouisfed.org/series/GS3"⟩),
   ("5 Yr Treasury Constant Maturity", ⟨"GS5", "https://fred.stlouisfed.org/series/GS5"⟩),
   ("7 Yr Treasury Constant Maturity", ⟨"GS7", "https://fred.stlouisfed.org/series/GS7"⟩),
   ("10 Yr Treasury Constant Maturity", ⟨"GS10", "https://fred.stlouisfed.org/series/GS10"⟩),
   ("1 Month Treasury Constant Maturity", ⟨"GS1M", "https://fred.stlouisfed.org/series/GS1M"⟩)]

/-- A fully processed rate series: date-indexed numeric values (the
`value` column of a non-failing pipeline run). -/
abbrev RateSeries := List (Nat × ℚ)

/-- `df.index.max()` of a series. -/
def latestDate (s : RateSeries) : Option Nat := (s.map Prod.fst).max?

/-- `df.loc[d]` on a date-indexed series (dates assumed unique, as pandas
requires for scalar `.loc` access). -/
def valueAtDate (s : RateSeries) (d : Nat) : Option ℚ :=
  (s.find? fun p => p.1 = d).map Prod.snd

/-- Python `round` to an integer: round half to even. -/
def roundHalfEven (q : ℚ) : ℤ :=
  if q - ⌊q⌋ < 1 / 2 then ⌊q⌋
  else if 1 / 2 < q - ⌊q⌋ then ⌊q⌋ + 1
  else if ⌊q⌋ % 2 = 0 then ⌊q⌋ else ⌊q⌋ + 1

/-- Python `round(val, 2)`. -/
def pyRound2 (q : ℚ) : ℚ := (roundHalfEven (q * 100) : ℚ) / 100

/-- One record of the rate summary.  `latestDate = none` renders as
"N/A" and `latestValue = none` as "No Data". -/
structure SummaryRow where
  rateName : String
  latestDate : Option Nat
  latestValue : Option ℚ
  source : String
deriving DecidableEq, Repr

namespace DataProcessor

/-- Record built by the loop body of DataProcessor.load_fred_summary for
one registry entry, given the fetched series for its series id. -/
def fredSummaryRow (fetch : String → RateSeries) (entry : String × FredMeta) : SummaryRow :=
  let df := fetch entry.2.seriesId
  if df = [] then
    { rateName := entry.1, latestDate := none, latestValue := none,
      source := entry.2.source }
  else
    { rateName := entry.1, latestDate := latestDate df,
      latestValue := ((latestDate df).bind (valueAtDate df)).map pyRound2,
      source := entry.2.source }

/-- DataProcessor.load_fred_summary: one record per registry entry, in
registry order.  `fetch` maps a series id to the series produced by
`run_pipeline` for it. -/
def loadFredSummary (fetch : String → RateSeries) : List SummaryRow :=
  FRED_SERIES_REGISTRY.map (fredSummaryRow fetch)

/-- The session's custom-rate dict, as an insertion-ordered association
list with the unique-key invariant of a Python dict. -/
abbrev CustomRates := List (String × RateSeries)

/-- Python dict assignment `d[k] = v`: overwrite in place when the key
exists, append otherwise. -/
def dictSet (m : CustomRates) (k : String) (v : RateSeries) : CustomRates :=
  if m.any (fun p => p.1 = k) then
    m.map fun p => if p.1 = k then (k, v) else p
  else m ++ [(k, v)]

/-- Record appended by get_combined_rate_summary for one custom rate
(`none` when the series is empty and the rate is skipped). -/
def customSummaryRow (name : String) (s : RateSeries) : Option SummaryRow :=
  if s = [] then none
  else some { rateName := name, latestDate := latestDate s,
              latestValue := ((latestDate s).bind (valueAtDate s)).map pyRound2,
              source := "User-defined custom rate" }

/-- DataProcessor.get_combined_rate_summary: the cached base summary rows
followed by one row per non-empty custom rate. -/
def getCombinedRateSummary (fetch : String → RateSeries) (customRates : CustomRates) :
    List SummaryRow :=
  loadFredSummary fetch ++ customRates.filterMap fun p => customSummaryRow p.1 p.2

end DataProcessor

/-! ## CustomRateBuilder (app/data_service/data_processor.py) -/

namespace CustomRateBuilder

open DataProcessor

/-- Python dict lookup `FRED_SERIES_REGISTRY[name]`: raises KeyError when
the name is not registered. -/
def registryGet (name : String) : Except PyError FredMeta :=
  match FRED_SERIES_REGISTRY.lookup name with
  | some meta => .ok meta
  | none => .error (.keyError name)

/-- The series id registered for a rate name (for stating properties of
registered names). -/
def seriesIdOf (name : String) : String :=
  ((FRED_SERIES_REGISTRY.lookup name).map FredMeta.seriesId).getD ""

/-- The `label_map` dict of create_simple_custom_rate. -/
def labelMap : List (String × String) :=
  [("Add", "+"), ("Subtract", "-"), ("Multiply", "*"), ("Divide", "/")]

/-- The operation if-chain of create_simple_custom_rate applied to the
base series' value column.  The final branch is unreachable: an unknown
operation already raised KeyError at `label_map[operation]`. -/
def applyOp (operation : String) (base : RateSeries) (v : ℚ) : RateSeries :=
  if operation = "Add" then base.map fun p => (p.1, p.2 + v)
  else if operation = "Subtract" then base.map fun p => (p.1, p.2 - v)
  else if operation = "Multiply" then base.map fun p => (p.1, p.2 * v)
  else if operation = "Divide" then base.map fun p => (p.1, p.2 / v)
  else base

/-- CustomRateBuilder.create_simple_custom_rate.  `fetch` maps a series id
to the series produced by `run_pipeline`. -/
def createSimpleCustomRate (fetch : String → RateSeries) (baseRate operation : String)
    (customValue : ℚ) : Except PyError (RateSeries × String) := do
  let meta ← registryGet baseRate
  let baseDf := fetch meta.seriesId
  if baseDf = [] then return ([], "")
  let symbol ← match labelMap.lookup operation with
    | some s => Except.ok s
    | none => Except.error (.keyError operation)
  let rateName := baseRate ++ " " ++ symbol ++ " " ++ toString customValue
  return (applyOp operation baseDf customValue, rateName)

/-- Forward fill along a list, carrying the last defined value. -/
def ffillFrom : Option ℚ → List (Option ℚ) → List (Option ℚ)
  | _, [] => []
  | last, none :: rest => last :: ffillFrom last rest
  | _, some v :: rest => some v :: ffillFrom (some v) rest

/-- `series.reindex(idx).fillna(method='ffill')`: exact-match lookup on
the new index, then forward fill along it. -/
def reindexFfill (s : RateSeries) (idx : List Nat) : List (Option ℚ) :=
  ffillFrom none (idx.map fun d => valueAtDate s d)

/-- NaN-propagating addition of two pandas cells. -/
def optAdd : Option ℚ → Option ℚ → Option ℚ
  | some a, some b => some (a + b)
  | _, _ => none

/-- NaN-propagating scalar multiplication `aligned * weight`. -/
def optScale (w : ℚ) (x : Option ℚ) : Option ℚ := x.map fun v => v * w

/-- The label fragment `f"{w*100:.0f}% {name}"` for one component (`w` is
the weight already divided by 100). -/
def fmtComponent (w : ℚ) (name : String) : String :=
  toString (roundHalfEven (w * 100)) ++ "% " ++ name

/-- The first loop of create_weighted_custom_rate: look the component up
in the registry (KeyError on an unknown name), fetch its series, and keep
`(series, weight/100, name)` when the series is non-empty. -/
def buildSeriesData (fetch : String → RateSeries) :
    List (String × ℚ) → Except PyError (List (RateSeries × ℚ × String))
  | [] => .ok []
  | (name, weight) :: rest => do
    let meta ← registryGet name
    let df := fetch meta.seriesId
    let tail ← buildSeriesData fetch rest
    pure (if df = [] then tail else (df, weight / 100, name) :: tail)

/-- CustomRateBuilder.create_weighted_custom_rate. -/
def createWeightedCustomRate (fetch : String → RateSeries)
    (components : List (String × ℚ)) :
    Except PyError (List (Nat × Option ℚ) × String) := do
  let seriesData ← buildSeriesData fetch components
  match seriesData with
  | [] => pure ([], "")
  | s0 :: _ =>
    let baseIdx := s0.1.map Prod.fst
    let label := String.intercalate " + "
      (seriesData.map fun t => fmtComponent t.2.1 t.2.2)
    let init : List (Option ℚ) := baseIdx.map fun _ => some 0
    let vals := seriesData.foldl
      (fun acc t => List.zipWith optAdd acc ((reindexFfill t.1 baseIdx).map (optScale t.2.1)))
      init
    pure (baseIdx.zip vals, label)

/-- CustomRateBuilder.save_custom_rate on the custom-rate dict. -/
def saveCustomRate (customRates : CustomRates) (rateName : String)
    (customSeries : RateSeries) : CustomRates :=
  dictSet customRates rateName customSeries

/-- The label the specification prescribes for a weighted rate, written
from the spec's words: "<w1%> <name1> + <w2%> <name2> + ...". -/
def specWeightedLabel (components : List (String × ℚ)) : String :=
  String.intercalate " + "
    (components.map fun c => toString (roundHalfEven c.2) ++ "% " ++ c.1)

/-- The value the specification prescribes at position `i` of the base
index: the sum over components of (weight/100) x (component value
reindexed onto the base index with gaps forward-filled), missing values
propagating. -/
def specWeightedValue (fetch : String → RateSeries) (components : List (String × ℚ))
    (baseIdx : List Nat) (i : Nat) : Option ℚ :=
  (components.map fun c =>
      ((reindexFfill (fetch (seriesIdOf c.1)) baseIdx).map (optScale (c.2 / 100))).getD i none
    ).foldl optAdd (some 0)

/-- The series the specification prescribes: indexed by the base index,
with the pointwise weighted sum as values. -/
def specWeightedSeries (fetch : String → RateSeries) (components : List (String × ℚ))
    (baseIdx : List Nat) : List (Nat × Option ℚ) :=
  baseIdx.zip ((List.range baseIdx.length).map (specWeightedValue fetch components baseIdx))

end CustomRateBuilder

/-! ## UserActivityAnalytics (app/data_service/user_activity_processor.py) -/

/-- One processed activity-log row: the username, the event, and the
calendar date derived from the row's timestamp (`timestamp.dt.date`),
as a day ordinal. -/
structure LogRow where
  username : String
  event : String
  date : Nat
deriving DecidableEq, Repr

namespace UserActivityAnalytics

/-- UserActivityAnalytics.filter_by_date_range: on a non-empty dataset,
keep the rows whose date lies in the inclusive window and whose event is
"login". -/
def filterByDateRange (rows : List LogRow) (startDate endDate : Nat) : List LogRow :=
  if rows.isEmpty then []
  else rows.filter fun r =>
    decide (startDate ≤ r.date) && decide (r.date ≤ endDate) && r.event == "login"

end UserActivityAnalytics

/-! ## FinancialGlossary.filter_and_sort_rates (app/views/glossary.py) -/

/-- The fields of a glossary entry that filter_and_sort_rates reads. -/
structure RateInfo where
  category : String
  description : String
deriving DecidableEq, Repr

namespace FinancialGlossary

/-- The fixed category priority list of the "By Impact" sort. -/
def impactOrder : List String :=
  ["Monetary Policy", "Reference Rate", "Government Securities",
   "Commercial Banking", "Consumer Finance", "Mortgage Finance",
   "Derivative Rate", "Legacy Reference Rate", "Government Sponsored Enterprise",
   "Regional Index", "Data Source"]

/-- The sort key `impact_order.index(category) if category in impact_order
else 999`. -/
def impactKey (info : RateInfo) : Nat :=
  if info.category ∈ impactOrder then impactOrder.indexOf info.category else 999

/-- Case-insensitive substring test `needle in haystack` (both already
lower-cased by the caller). -/
def strContains (needle haystack : String) : Bool :=
  decide (needle.toList <:+: haystack.toList)

/-- The category and search filters of filter_and_sort_rates. -/
def applyGlossaryFilters (rates : List (String × RateInfo))
    (selectedCategory searchTerm : String) : List (String × RateInfo) :=
  let f1 := if selectedCategory ≠ "Todos" then
      rates.filter fun p => p.2.category == selectedCategory
    else rates
  if searchTerm ≠ "" then
    f1.filter fun p =>
      strContains searchTerm.toLower p.1.toLower ||
      strContains searchTerm.toLower p.2.description.toLower
  else f1

/-- Ordering by name, as `sorted(filtered_rates.items())` compares the
name component first (names are unique dict keys). -/
def alphaRel (a b : String × RateInfo) : Prop := a.1 ≤ b.1

instance alphaRel.instDecRel : DecidableRel alphaRel := fun a b =>
  inferInstanceAs (Decidable (a.1 ≤ b.1))

/-- Ordering by category, the `x[1]["category"]` key. -/
def catRel (a b : String × RateInfo) : Prop := a.2.category ≤ b.2.category

instance catRel.instDecRel : DecidableRel catRel := fun a b =>
  inferInstanceAs (Decidable (a.2.category ≤ b.2.category))

/-- Ordering by the impact key. -/
def impactRel (a b : String × RateInfo) : Prop := impactKey a.2 ≤ impactKey b.2

instance impactRel.instDecRel : DecidableRel impactRel := fun _ _ =>
  Nat.decLe _ _

instance impactRel.instTotal : IsTotal (String × RateInfo) impactRel where
  total _ _ := Nat.le_total _ _

instance impactRel.instTrans : IsTrans (String × RateInfo) impactRel where
  trans _ _ _ hab hbc := Nat.le_trans hab hbc

/-- FinancialGlossary.filter_and_sort_rates.  Python's `sorted` is a
stable sort on the given key; it is modelled by a stable sort. -/
def filterAndSortRates (rates : List (String × RateInfo))
    (selectedCategory searchTerm sortBy : String) : List (String × RateInfo) :=
  let filtered := applyGlossaryFilters rates selectedCategory searchTerm
  if sortBy = "Alfabético" then List.insertionSort alphaRel filtered
  else if sortBy = "Por Categoría" then List.insertionSort catRel filtered
  else List.insertionSort impactRel filtered

end FinancialGlossary

/-! ## Theorems -/

/-- Claim C1: the claim states that when the API key and base URL are set
but the HTTP request fails (so `_fetch_data` logs the error and returns
`None`), `run_pipeline` returns an empty result without raising.  The code
violates this: `_process_data(None)` evaluates `None.get('observations',
[])`, which raises `AttributeError`, so `run_pipeline` propagates an
exception instead of returning an empty frame.  This theorem evaluates the
model at such a failing input. -/
theorem fred_runPipeline_raises_on_fetch_failure :
    FredSeries.runPipeline (fun _ => none) (fun _ => none)
      "test-api-key" "https://api.stlouisfed.org/fred/series/observations" none
      = .error (.attributeError "NoneType object has no attribute get") := rfl

/-- Claim C2: the claim states that `cleanup_old_data` with threshold H
keeps exactly the entries younger than H hours.  The code violates this:
entries are plain dicts, `hasattr(entry, 'timestamp')` is `False` for
every one of them, so every entry is discarded regardless of age.  Here a
notification added one hour before cleanup (age 1 h < 24 h, so the claim
says it is kept) is discarded, as is a one-hour-old error entry. -/
theorem session_cleanupOldData_discards_fresh_entries :
    SessionStateManager.cleanupOldData 7200 24
      { notifications :=
          SessionStateManager.addNotification 3600 [] "data refresh finished" "info",
        errorHistory :=
          SessionStateManager.addNotification 3600 [] "fetch failed" "error" }
      = { notifications := [], errorHistory := [] } := rfl

/-- Claim C3: the claim states that `parse_rates` returns without raising
for every table shape.  The code violates this: the guard admits rows with
exactly two cells (`len(cols) >= 2`) and then reads `cols[2]`, which
raises `IndexError`.  This theorem evaluates the model on a table whose
single data row has exactly two cells. -/
theorem fhlb_parseRates_raises_on_two_cell_row :
    FHLBScraper.parseRates
      [["Term", "Advance Rate", "Regular Rate"], ["header"], ["5 Years", "4.50%"]]
      = .error .indexError := rfl

/-- Permission membership agrees with the spec's table for each of the
four roles and five permissions. -/
theorem rolePermissions_contains_eq_spec (r p : String)
    (hr : r ∈ ["admin", "power_user", "user", "guest"])
    (hp : p ∈ ["view_data", "download_data", "create_custom_rates", "view_logs",
               "manage_users"]) :
    (UserPermissionManager.rolePermissions r).contains p
      = UserPermissionManager.specPermissionTable r p := by
  simp only [List.mem_cons, List.not_mem_nil, or_false] at hr hp
  rcases hr with h | h | h | h <;> rcases hp with h' | h' | h' | h' | h' <;>
    subst h <;> subst h' <;> decide

/-- Claim C4: for every configuration and username whose resolved role is
one of admin, power_user, user, guest, and every permission of the fixed
five, `has_permission` returns exactly the membership of the fixed
role→permission table (admin holds all five; power_user holds view_data,
download_data, create_custom_rates; user and guest hold view_data and
download_data); the role is "guest" for username "guest" and otherwise the
configured role, defaulting to "user" when the username or its role field
is absent from configuration. -/
theorem auth_hasPermission_matches_spec_table (config : AuthConfig)
    (username permission : String)
    (hrole : UserPermissionManager.getUserRole config username ∈
      ["admin", "power_user", "user", "guest"])
    (hperm : permission ∈
      ["view_data", "download_data", "create_custom_rates", "view_logs",
       "manage_users"]) :
    UserPermissionManager.hasPermission config username permission
        = UserPermissionManager.specPermissionTable
            (UserPermissionManager.getUserRole config username) permission
    ∧ (username = "guest" → UserPermissionManager.getUserRole config username = "guest")
    ∧ (username ≠ "guest" → config.lookup username = none →
        UserPermissionManager.getUserRole config username = "user")
    ∧ (∀ user, username ≠ "guest" → config.lookup username = some user →
        user.role = none → UserPermissionManager.getUserRole config username = "user")
    ∧ (∀ user r, username ≠ "guest" → config.lookup username = some user →
        user.role = some r → UserPermissionManager.getUserRole config username = r) := by
  refine ⟨rolePermissions_contains_eq_spec _ _ hrole hperm, ?_, ?_, ?_, ?_⟩
  · intro h
    simp [UserPermissionManager.getUserRole, h]
  · intro h hn
    simp [UserPermissionManager.getUserRole, h, hn]
  · intro user h hl hr0
    simp [UserPermissionManager.getUserRole, h, hl, hr0]
  · intro user r h hl hr0
    simp [UserPermissionManager.getUserRole, h, hl, hr0]

/-- Witness for C4: a concrete configuration in which "carol" has the
power_user role; has_permission is evaluated on create_custom_rates. -/
theorem auth_hasPermission_matches_spec_table_witness :
    (UserPermissionManager.getUserRole [("carol", ⟨some "power_user"⟩)] "carol" ∈
        ["admin", "power_user", "user", "guest"]
      ∧ "create_custom_rates" ∈
        ["view_data", "download_data", "create_custom_rates", "view_logs",
         "manage_users"])
    ∧ (UserPermissionManager.hasPermission [("carol", ⟨some "power_user"⟩)] "carol"
          "create_custom_rates"
        = UserPermissionManager.specPermissionTable
            (UserPermissionManager.getUserRole [("carol", ⟨some "power_user"⟩)] "carol")
            "create_custom_rates"
      ∧ ("carol" = "guest" →
          UserPermissionManager.getUserRole [("carol", ⟨some "power_user"⟩)] "carol"
            = "guest")
      ∧ ("carol" ≠ "guest" →
          List.lookup "carol" [("carol", (⟨some "power_user"⟩ : UserRecord))] = none →
          UserPermissionManager.getUserRole [("carol", ⟨some "power_user"⟩)] "carol"
            = "user")
      ∧ (∀ user, "carol" ≠ "guest" →
          List.lookup "carol" [("carol", (⟨some "power_user"⟩ : UserRecord))] = some user →
          user.role = none →
          UserPermissionManager.getUserRole [("carol", ⟨some "power_user"⟩)] "carol"
            = "user")
      ∧ (∀ user r, "carol" ≠ "guest" →
          List.lookup "carol" [("carol", (⟨some "power_user"⟩ : UserRecord))] = some user →
          user.role = some r →
          UserPermissionManager.getUserRole [("carol", ⟨some "power_user"⟩)] "carol"
            = r)) :=
  ⟨⟨by decide, by decide⟩,
    auth_hasPermission_matches_spec_table [("carol", ⟨some "power_user"⟩)] "carol"
      "create_custom_rates" (by decide) (by decide)⟩

/-- Claim C7: for a payload with a non-empty observations list, the
processing step yields one row per observation (same length), the rows
are exactly the parsed observations (a permutation, so each non-numeric
raw value is coerced to the missing-value sentinel `none` rather than
raising), and the rows are sorted by date ascending; an empty or absent
observations list yields an empty result. -/
theorem fred_processPayload_spec (parseDate : String → Option Nat)
    (parseNum : String → Option ℚ) (payload : Payload) :
    (payload.observations ≠ [] →
      (FredSeries.processPayload parseDate parseNum payload).length
          = payload.observations.length
      ∧ (FredSeries.processPayload parseDate parseNum payload).Perm
          (payload.observations.map (parseObservation parseDate parseNum))
      ∧ List.Sorted rowLE (FredSeries.processPayload parseDate parseNum payload))
    ∧ (payload.observations = [] →
        FredSeries.processPayload parseDate parseNum payload = []) := by
  constructor
  · intro hne
    have hemp : payload.observations.isEmpty = false := by
      simpa [List.isEmpty_iff] using hne
    have hdef : FredSeries.processPayload parseDate parseNum payload
        = List.insertionSort rowLE
            (payload.observations.map (parseObservation parseDate parseNum)) := by
      simp [FredSeries.processPayload, hemp]
    rw [hdef]
    refine ⟨?_, List.perm_insertionSort _ _, List.sorted_insertionSort _ _⟩
    exact (List.perm_insertionSort rowLE _).length_eq.trans (List.length_map _ _)
  · intro he
    simp [FredSeries.processPayload, he]

/-- Witness for C7: two observations, out of order, the second value
non-numeric; the conclusion is instantiated at this concrete payload. -/
theorem fred_processPayload_spec_witness :
    (Payload.mk [⟨"2020-01-02", "oops"⟩, ⟨"2020-01-01", "1.5"⟩]).observations ≠ []
    ∧ ((FredSeries.processPayload
          (fun s => if s = "2020-01-01" then some 0 else
            if s = "2020-01-02" then some 1 else none)
          (fun s => if s = "1.5" then some (3 / 2) else none)
          (Payload.mk [⟨"2020-01-02", "oops"⟩, ⟨"2020-01-01", "1.5"⟩])).length
        = (Payload.mk [⟨"2020-01-02", "oops"⟩, ⟨"2020-01-01", "1.5"⟩]).observations.length
      ∧ (FredSeries.processPayload
          (fun s => if s = "2020-01-01" then some 0 else
            if s = "2020-01-02" then some 1 else none)
          (fun s => if s = "1.5" then some (3 / 2) else none)
          (Payload.mk [⟨"2020-01-02", "oops"⟩, ⟨"2020-01-01", "1.5"⟩])).Perm
          ((Payload.mk [⟨"2020-01-02", "oops"⟩, ⟨"2020-01-01", "1.5"⟩]).observations.map
            (parseObservation
              (fun s => if s = "2020-01-01" then some 0 else
                if s = "2020-01-02" then some 1 else none)
              (fun s => if s = "1.5" then some (3 / 2) else none)))
      ∧ List.Sorted rowLE
          (FredSeries.processPayload
            (fun s => if s = "2020-01-01" then some 0 else
              if s = "2020-01-02" then some 1 else none)
            (fun s => if s = "1.5" then some (3 / 2) else none)
            (Payload.mk [⟨"2020-01-02", "oops"⟩, ⟨"2020-01-01", "1.5"⟩]))) :=
  ⟨by decide,
    (fred_processPayload_spec
      (fun s => if s = "2020-01-01" then some 0 else
        if s = "2020-01-02" then some 1 else none)
      (fun s => if s = "1.5" then some (3 / 2) else none)
      (Payload.mk [⟨"2020-01-02", "oops"⟩, ⟨"2020-01-01", "1.5"⟩])).1 (by decide)⟩

/-- Claim C8: on a non-empty activity log, filter_by_date_range returns
exactly the rows whose date lies in the inclusive window and whose event
is "login" (stated by membership and by multiplicity), and no logout row
ever appears in the result. -/
theorem activity_filterByDateRange_spec (rows : List LogRow) (s e : Nat)
    (hne : rows ≠ []) :
    (∀ r, r ∈ UserActivityAnalytics.filterByDateRange rows s e ↔
        r ∈ rows ∧ s ≤ r.date ∧ r.date ≤ e ∧ r.event = "login")
    ∧ (∀ r, (UserActivityAnalytics.filterByDateRange rows s e).count r =
        if s ≤ r.date ∧ r.date ≤ e ∧ r.event = "login" then rows.count r else 0)
    ∧ (∀ r ∈ UserActivityAnalytics.filterByDateRange rows s e, r.event ≠ "logout") := by
  have hemp : rows.isEmpty = false := by simpa [List.isEmpty_iff] using hne
  have hdef : UserActivityAnalytics.filterByDateRange rows s e
      = rows.filter fun r =>
          decide (s ≤ r.date) && decide (r.date ≤ e) && (r.event == "login") := by
    simp [UserActivityAnalytics.filterByDateRange, hemp]
  have hmem : ∀ r, r ∈ UserActivityAnalytics.filterByDateRange rows s e ↔
      r ∈ rows ∧ s ≤ r.date ∧ r.date ≤ e ∧ r.event = "login" := by
    intro r
    rw [hdef]
    simp [List.mem_filter, and_assoc]
  refine ⟨hmem, ?_, ?_⟩
  · intro r
    rw [hdef]
    by_cases hc : s ≤ r.date ∧ r.date ≤ e ∧ r.event = "login"
    · rw [if_pos hc]
      exact List.count_filter (by simp [hc.1, hc.2.1, hc.2.2])
    · rw [if_neg hc]
      refine List.count_eq_zero.mpr ?_
      intro hmem2
      have h2 := (List.mem_filter.mp hmem2).2
      simp only [Bool.and_eq_true, decide_eq_true_eq, beq_iff_eq] at h2
      exact hc ⟨h2.1.1, h2.1.2, h2.2⟩
  · intro r hr hlogout
    have h := ((hmem r).mp hr).2.2.2
    rw [hlogout] at h
    exact absurd h (by decide)

/-- Witness for C8: a three-row log with a logout row and a login row
outside the window; the window [0, 10] keeps exactly the first login. -/
theorem activity_filterByDateRange_spec_witness :
    ([⟨"alice", "login", 5⟩, ⟨"bob", "logout", 6⟩, ⟨"alice", "login", 20⟩] : List LogRow) ≠ []
    ∧ ((∀ r, r ∈ UserActivityAnalytics.filterByDateRange
            [⟨"alice", "login", 5⟩, ⟨"bob", "logout", 6⟩, ⟨"alice", "login", 20⟩] 0 10 ↔
          r ∈ ([⟨"alice", "login", 5⟩, ⟨"bob", "logout", 6⟩,
                ⟨"alice", "login", 20⟩] : List LogRow)
            ∧ 0 ≤ r.date ∧ r.date ≤ 10 ∧ r.event = "login")
      ∧ (∀ r, (UserActivityAnalytics.filterByDateRange
            [⟨"alice", "login", 5⟩, ⟨"bob", "logout", 6⟩, ⟨"alice", "login", 20⟩] 0 10).count r =
          if 0 ≤ r.date ∧ r.date ≤ 10 ∧ r.event = "login" then
            ([⟨"alice", "login", 5⟩, ⟨"bob", "logout", 6⟩,
              ⟨"alice", "login", 20⟩] : List LogRow).count r
          else 0)
      ∧ (∀ r ∈ UserActivityAnalytics.filterByDateRange
            [⟨"alice", "login", 5⟩, ⟨"bob", "logout", 6⟩, ⟨"alice", "login", 20⟩] 0 10,
          r.event ≠ "logout")) :=
  ⟨by decide,
    activity_filterByDateRange_spec
      [⟨"alice", "login", 5⟩, ⟨"bob", "logout", 6⟩, ⟨"alice", "login", 20⟩] 0 10
      (by decide)⟩

/-- Claim C9: with the "By Impact" sort mode (any mode other than the
alphabetical and category modes takes the impact branch), the output is a
permutation of the filtered terms, its impact keys are non-decreasing
along the list (so terms with listed categories appear in the fixed
priority order, Monetary Policy first, Data Source last), and no term
whose category is absent from the fixed 11-entry priority list ever
precedes a term whose category is listed. -/
theorem glossary_impact_sort_spec (rates : List (String × RateInfo))
    (cat search sortBy : String)
    (h1 : sortBy ≠ "Alfabético") (h2 : sortBy ≠ "Por Categoría") :
    (FinancialGlossary.filterAndSortRates rates cat search sortBy).Perm
        (FinancialGlossary.applyGlossaryFilters rates cat search)
    ∧ (∀ i j : Fin (FinancialGlossary.filterAndSortRates rates cat search sortBy).length,
        i < j →
          FinancialGlossary.impactKey
              ((FinancialGlossary.filterAndSortRates rates cat search sortBy).get i).2
            ≤ FinancialGlossary.impactKey
              ((FinancialGlossary.filterAndSortRates rates cat search sortBy).get j).2)
    ∧ (∀ i j : Fin (FinancialGlossary.filterAndSortRates rates cat search sortBy).length,
        i < j →
          ((FinancialGlossary.filterAndSortRates rates cat search sortBy).get i).2.category
              ∉ FinancialGlossary.impactOrder →
          ((FinancialGlossary.filterAndSortRates rates cat search sortBy).get j).2.category
              ∉ FinancialGlossary.impactOrder) := by
  have hdef : FinancialGlossary.filterAndSortRates rates cat search sortBy
      = List.insertionSort FinancialGlossary.impactRel
          (FinancialGlossary.applyGlossaryFilters rates cat search) := by
    simp [FinancialGlossary.filterAndSortRates, h1, h2]
  have hs : List.Sorted FinancialGlossary.impactRel
      (FinancialGlossary.filterAndSortRates rates cat search sortBy) := by
    rw [hdef]
    exact List.sorted_insertionSort _ _
  refine ⟨?_, ?_, ?_⟩
  · rw [hdef]
    exact List.perm_insertionSort _ _
  · intro i j hij
    exact hs.rel_get_of_lt hij
  · intro i j hij hci hcj
    have hle : FinancialGlossary.impactKey
          ((FinancialGlossary.filterAndSortRates rates cat search sortBy).get i).2
        ≤ FinancialGlossary.impactKey
          ((FinancialGlossary.filterAndSortRates rates cat search sortBy).get j).2 :=
      hs.rel_get_of_lt hij
    have hki : FinancialGlossary.impactKey
        ((FinancialGlossary.filterAndSortRates rates cat search sortBy).get i).2 = 999 := by
      unfold FinancialGlossary.impactKey
      rw [if_neg hci]
    have hlt := List.indexOf_lt_length.mpr hcj
    have h11 : FinancialGlossary.impactOrder.length = 11 := rfl
    have hkj : FinancialGlossary.impactKey
        ((FinancialGlossary.filterAndSortRates rates cat search sortBy).get j).2 < 999 := by
      unfold FinancialGlossary.impactKey
      rw [if_pos hcj]
      omega
    omega

/-- Witness for C9: two glossary entries, one with an unlisted category
and one with "Monetary Policy", sorted with "By Impact". -/
theorem glossary_impact_sort_spec_witness :
    (("By Impact" : String) ≠ "Alfabético" ∧ ("By Impact" : String) ≠ "Por Categoría")
    ∧ ((FinancialGlossary.filterAndSortRates
          [("Alpha", ⟨"Mystery", "odd"⟩), ("Beta", ⟨"Monetary Policy", "fed"⟩)]
          "Todos" "" "By Impact").Perm
        (FinancialGlossary.applyGlossaryFilters
          [("Alpha", ⟨"Mystery", "odd"⟩), ("Beta", ⟨"Monetary Policy", "fed"⟩)]
          "Todos" "")
      ∧ (∀ i j : Fin (FinancialGlossary.filterAndSortRates
            [("Alpha", ⟨"Mystery", "odd"⟩), ("Beta", ⟨"Monetary Policy", "fed"⟩)]
            "Todos" "" "By Impact").length,
          i < j →
            FinancialGlossary.impactKey
                ((FinancialGlossary.filterAndSortRates
                  [("Alpha", ⟨"Mystery", "odd"⟩), ("Beta", ⟨"Monetary Policy", "fed"⟩)]
                  "Todos" "" "By Impact").get i).2
              ≤ FinancialGlossary.impactKey
                ((FinancialGlossary.filterAndSortRates
                  [("Alpha", ⟨"Mystery", "odd"⟩), ("Beta", ⟨"Monetary Policy", "fed"⟩)]
                  "Todos" "" "By Impact").get j).2)
      ∧ (∀ i j : Fin (FinancialGlossary.filterAndSortRates
            [("Alpha", ⟨"Mystery", "odd"⟩), ("Beta", ⟨"Monetary Policy", "fed"⟩)]
            "Todos" "" "By Impact").length,
          i < j →
            ((FinancialGlossary.filterAndSortRates
                [("Alpha", ⟨"Mystery", "odd"⟩), ("Beta", ⟨"Monetary Policy", "fed"⟩)]
                "Todos" "" "By Impact").get i).2.category
                ∉ FinancialGlossary.impactOrder →
            ((FinancialGlossary.filterAndSortRates
                [("Alpha", ⟨"Mystery", "odd"⟩), ("Beta", ⟨"Monetary Policy", "fed"⟩)]
                "Todos" "" "By Impact").get j).2.category
                ∉ FinancialGlossary.impactOrder)) :=
  ⟨⟨by decide, by decide⟩,
    glossary_impact_sort_spec
      [("Alpha", ⟨"Mystery", "odd"⟩), ("Beta", ⟨"Monetary Policy", "fed"⟩)]
      "Todos" "" "By Impact" (by decide) (by decide)⟩

/-- Lookup skips an entry whose key differs from the query. -/
lemma lookup_cons_ne {beta : Type} (k : String) (p : String × beta)
    (t : List (String × beta)) (h : p.1 ≠ k) :
    List.lookup k (p :: t) = List.lookup k t := by
  obtain ⟨a, b⟩ := p
  rw [List.lookup_cons]
  rw [beq_eq_false_iff_ne.mpr (fun he : k = a => h he.symm)]

/-- Dict assignment makes the assigned key map to the new value. -/
lemma dictSet_lookup (m : DataProcessor.CustomRates) (k : String) (v : RateSeries) :
    (DataProcessor.dictSet m k v).lookup k = some v := by
  induction m with
  | nil => simp [DataProcessor.dictSet, List.lookup]
  | cons p t ih =>
    by_cases hp : p.1 = k
    · have hany : (p :: t).any (fun q => q.1 = k) = true := by
        simp [List.any_cons, hp]
      simp [DataProcessor.dictSet, hany, List.lookup, hp]
    · by_cases ha : t.any (fun q => q.1 = k) = true
      · have hany : (p :: t).any (fun q => q.1 = k) = true := by
          simp [List.any_cons, ha]
        have ih2 := ih
        simp only [DataProcessor.dictSet, ha, if_true] at ih2
        simp only [DataProcessor.dictSet, hany, if_true, List.map_cons, if_neg hp]
        rw [lookup_cons_ne _ _ _ (by simpa using hp)]
        exact ih2
      · have hany : (p :: t).any (fun q => q.1 = k) = false := by
          simp only [List.any_cons, Bool.or_eq_false_iff]
          exact ⟨decide_eq_false hp, Bool.eq_false_iff.mpr ha⟩
        have ih2 := ih
        simp only [DataProcessor.dictSet, ha, if_false, Bool.false_eq_true] at ih2
        simp only [DataProcessor.dictSet, hany, Bool.false_eq_true, if_false, List.cons_append]
        rw [lookup_cons_ne _ _ _ hp]
        exact ih2

/-- Dict assignment on a dict with distinct keys leaves exactly one entry
with the assigned key, holding the new value. -/
lemma dictSet_filter_key (m : DataProcessor.CustomRates) (k : String) (v : RateSeries)
    (hnodup : (m.map Prod.fst).Nodup) :
    (DataProcessor.dictSet m k v).filter (fun p => p.1 = k) = [(k, v)] := by
  induction m with
  | nil => simp [DataProcessor.dictSet]
  | cons p t ih =>
    rw [List.map_cons] at hnodup
    have hpt : p.1 ∉ t.map Prod.fst := (List.nodup_cons.mp hnodup).1
    have ht : (t.map Prod.fst).Nodup := (List.nodup_cons.mp hnodup).2
    by_cases hp : p.1 = k
    · have hany : (p :: t).any (fun q => q.1 = k) = true := by
        simp [List.any_cons, hp]
      have hrest : ∀ q ∈ t, q.1 ≠ k := by
        intro q hq hqk
        exact hpt (hp ▸ hqk ▸ List.mem_map_of_mem Prod.fst hq)
      have hmap_id : t.map (fun q => if q.1 = k then (k, v) else q) = t := by
        have h1 : t.map (fun q => if q.1 = k then (k, v) else q) = t.map id :=
          List.map_congr_left fun q hq => by rw [if_neg (hrest q hq)] ; rfl
        rw [h1, List.map_id]
      have hfilter_nil : t.filter (fun p => p.1 = k) = [] := by
        rw [List.filter_eq_nil_iff]
        intro q hq
        simpa using hrest q hq
      simp [DataProcessor.dictSet, hany, hp, hmap_id, hfilter_nil]
    · by_cases ha : t.any (fun q => q.1 = k) = true
      · have hany : (p :: t).any (fun q => q.1 = k) = true := by
          simp [List.any_cons, ha]
        have ih2 := ih ht
        simp only [DataProcessor.dictSet, ha, if_true] at ih2
        simp only [DataProcessor.dictSet, hany, if_true, List.map_cons, if_neg hp]
        rw [List.filter_cons_of_neg (by simpa using hp)]
        exact ih2
      · have hany : (p :: t).any (fun q => q.1 = k) = false := by
          simp only [List.any_cons, Bool.or_eq_false_iff]
          exact ⟨decide_eq_false hp, Bool.eq_false_iff.mpr ha⟩
        have ih2 := ih ht
        simp only [DataProcessor.dictSet, ha, if_false, Bool.false_eq_true] at ih2
        simp only [DataProcessor.dictSet, hany, Bool.false_eq_true, if_false, List.cons_append]
        rw [List.filter_cons_of_neg (by simpa using hp)]
        exact ih2

/-- Dict assignment preserves distinctness of keys. -/
lemma dictSet_nodup (m : DataProcessor.CustomRates) (k : String) (v : RateSeries)
    (hnodup : (m.map Prod.fst).Nodup) :
    ((DataProcessor.dictSet m k v).map Prod.fst).Nodup := by
  unfold DataProcessor.dictSet
  by_cases ha : m.any (fun p => p.1 = k) = true
  · rw [if_pos ha]
    have hmap : (m.map fun p => if p.1 = k then (k, v) else p).map Prod.fst
        = m.map Prod.fst := by
      rw [List.map_map]
      apply List.map_congr_left
      intro q _
      by_cases hq : q.1 = k
      · simp [hq]
      · simp [hq]
    rw [hmap]
    exact hnodup
  · rw [if_neg ha]
    have hk : k ∉ m.map Prod.fst := by
      intro hmem
      apply ha
      rw [List.any_eq_true]
      obtain ⟨q, hq, hq1⟩ := List.mem_map.mp hmem
      exact ⟨q, hq, by simpa using hq1⟩
    rw [List.map_append, List.nodup_append]
    refine ⟨hnodup, List.nodup_singleton k, ?_⟩
    intro a ha' hk'
    have : a = k := by simpa using hk'
    exact hk (this ▸ ha')

/-- Filtering the custom summary rows by name is filtering the custom
dict by key first: every produced row carries its entry's key as name. -/
lemma filterMap_customSummaryRow_filter (l : DataProcessor.CustomRates) (name : String) :
    (l.filterMap fun p => DataProcessor.customSummaryRow p.1 p.2).filter
        (fun r => r.rateName = name)
      = (l.filter fun p => p.1 = name).filterMap
          fun p => DataProcessor.customSummaryRow p.1 p.2 := by
  induction l with
  | nil => simp
  | cons p t ih =>
    simp only [DataProcessor.customSummaryRow] at ih ⊢
    by_cases hs : p.2 = []
    · by_cases hk : p.1 = name <;> simpa [hs, hk] using ih
    · by_cases hk : p.1 = name <;> simpa [hs, hk] using ih

/-- Every base summary row carries its registry entry's rate name. -/
lemma fredSummaryRow_rateName (fetch : String → RateSeries) (entry : String × FredMeta) :
    (DataProcessor.fredSummaryRow fetch entry).rateName = entry.1 := by
  unfold DataProcessor.fredSummaryRow
  by_cases h : fetch entry.2.seriesId = [] <;> simp [h]

/-- A name registered for no base rate matches no base summary row. -/
lemma loadFredSummary_filter_of_not_mem (fetch : String → RateSeries) (name : String)
    (h : name ∉ FRED_SERIES_REGISTRY.map Prod.fst) :
    (DataProcessor.loadFredSummary fetch).filter (fun r => r.rateName = name) = [] := by
  unfold DataProcessor.loadFredSummary
  rw [List.filter_eq_nil_iff]
  intro r hr
  obtain ⟨entry, hentry, hre⟩ := List.mem_map.mp hr
  have : r.rateName = entry.1 := hre ▸ fredSummaryRow_rateName fetch entry
  simp only [this, decide_eq_true_eq]
  intro heq
  exact h (heq ▸ List.mem_map_of_mem Prod.fst hentry)

/-- Claim C5 counterexample: the claim promises exactly one combined
summary row for an overwritten custom-rate name, for every rate name.
With the name "SOFR", which is also one of the 11 base registry names,
the combined summary holds a base SOFR row and the custom SOFR row: two
rows, not one. -/
theorem combined_summary_duplicate_name_cex :
    ¬ (((DataProcessor.getCombinedRateSummary (fun _ => [])
          (CustomRateBuilder.saveCustomRate
            (CustomRateBuilder.saveCustomRate [] "SOFR" [(0, 1)]) "SOFR" [(1, 2)])).filter
        (fun r => r.rateName = "SOFR")).length = 1) := by decide

/-- Claim C5 (amended): saving a custom rate under an existing name
overwrites the prior series (last save wins); the combined summary keeps
the cached base rows unchanged and contains exactly one custom-rate row
for that name, carrying the latest date and latest value of the most
recently saved series; and when the name is not one of the 11 base
registry names that custom row is the only combined row with that name. -/
theorem save_custom_rate_overwrites_spec (fetch : String → RateSeries)
    (m : DataProcessor.CustomRates) (name : String) (s1 s2 : RateSeries)
    (hnodup : (m.map Prod.fst).Nodup) (hs2 : s2 ≠ []) :
    (CustomRateBuilder.saveCustomRate
        (CustomRateBuilder.saveCustomRate m name s1) name s2).lookup name = some s2
    ∧ ((CustomRateBuilder.saveCustomRate
          (CustomRateBuilder.saveCustomRate m name s1) name s2).filterMap
            (fun p => DataProcessor.customSummaryRow p.1 p.2)).filter
          (fun r => r.rateName = name)
        = [{ rateName := name, latestDate := latestDate s2,
             latestValue := ((latestDate s2).bind (valueAtDate s2)).map pyRound2,
             source := "User-defined custom rate" }]
    ∧ DataProcessor.getCombinedRateSummary fetch
          (CustomRateBuilder.saveCustomRate
            (CustomRateBuilder.saveCustomRate m name s1) name s2)
        = DataProcessor.loadFredSummary fetch
          ++ (CustomRateBuilder.saveCustomRate
              (CustomRateBuilder.saveCustomRate m name s1) name s2).filterMap
            (fun p => DataProcessor.customSummaryRow p.1 p.2)
    ∧ (name ∉ FRED_SERIES_REGISTRY.map Prod.fst →
        (DataProcessor.getCombinedRateSummary fetch
            (CustomRateBuilder.saveCustomRate
              (CustomRateBuilder.saveCustomRate m name s1) name s2)).filter
          (fun r => r.rateName = name)
        = [{ rateName := name, latestDate := latestDate s2,
             latestValue := ((latestDate s2).bind (valueAtDate s2)).map pyRound2,
             source := "User-defined custom rate" }]) := by
  have hnodup1 : ((DataProcessor.dictSet m name s1).map Prod.fst).Nodup :=
    dictSet_nodup m name s1 hnodup
  have hfilter : (CustomRateBuilder.saveCustomRate
      (CustomRateBuilder.saveCustomRate m name s1) name s2).filter
        (fun p => p.1 = name) = [(name, s2)] :=
    dictSet_filter_key _ name s2 hnodup1
  have hcustom : ((CustomRateBuilder.saveCustomRate
        (CustomRateBuilder.saveCustomRate m name s1) name s2).filterMap
          (fun p => DataProcessor.customSummaryRow p.1 p.2)).filter
        (fun r => r.rateName = name)
      = [{ rateName := name, latestDate := latestDate s2,
           latestValue := ((latestDate s2).bind (valueAtDate s2)).map pyRound2,
           source := "User-defined custom rate" }] := by
    rw [filterMap_customSummaryRow_filter, hfilter]
    simp [DataProcessor.customSummaryRow, hs2]
  refine ⟨dictSet_lookup _ name s2, hcustom, rfl, ?_⟩
  intro hname
  unfold DataProcessor.getCombinedRateSummary
  rw [List.filter_append, loadFredSummary_filter_of_not_mem fetch name hname,
    List.nil_append]
  exact hcustom

/-- Witness for C5 (amended): a one-entry custom dict under key "My Rate"
is overwritten; the combined summary over empty base fetches is evaluated. -/
theorem save_custom_rate_overwrites_spec_witness :
    ((([("My Rate", [((0 : Nat), (1 : ℚ))])] : DataProcessor.CustomRates).map Prod.fst).Nodup
      ∧ ([((3 : Nat), (7 : ℚ))] : RateSeries) ≠ [])
    ∧ (CustomRateBuilder.saveCustomRate
          (CustomRateBuilder.saveCustomRate [("My Rate", [(0, 1)])] "My Rate" [(2, 5)])
          "My Rate" [(3, 7)]).lookup "My Rate" = some [(3, 7)]
    ∧ ((CustomRateBuilder.saveCustomRate
          (CustomRateBuilder.saveCustomRate [("My Rate", [(0, 1)])] "My Rate" [(2, 5)])
          "My Rate" [(3, 7)]).filterMap
            (fun p => DataProcessor.customSummaryRow p.1 p.2)).filter
          (fun r => r.rateName = "My Rate")
        = [{ rateName := "My Rate", latestDate := latestDate [(3, 7)],
             latestValue := ((latestDate [(3, 7)]).bind (valueAtDate [(3, 7)])).map pyRound2,
             source := "User-defined custom rate" }] :=
  ⟨⟨by decide, by decide⟩,
    (save_custom_rate_overwrites_spec (fun _ => []) [("My Rate", [(0, 1)])] "My Rate"
      [(2, 5)] [(3, 7)] (by decide) (by decide)).1,
    (save_custom_rate_overwrites_spec (fun _ => []) [("My Rate", [(0, 1)])] "My Rate"
      [(2, 5)] [(3, 7)] (by decide) (by decide)).2.1⟩

/-- Bind on a successful Except applies the continuation. -/
lemma Except_ok_bind {e a b : Type} (x : a) (f : a → Except e b) :
    (Except.ok x >>= f) = f x := rfl

/-- Bind on a failed Except propagates the failure. -/
lemma Except_error_bind {e a b : Type} (err : e) (f : a → Except e b) :
    ((Except.error err : Except e a) >>= f) = Except.error err := rfl

/-- A list is the table of its own positions. -/
lemma range_map_getD {a : Type} (l : List a) (d : a) :
    (List.range l.length).map (fun i => l.getD i d) = l := by
  induction l with
  | nil => simp
  | cons x t ih =>
    rw [List.length_cons, List.range_succ_eq_map, List.map_cons, List.map_map]
    simp only [List.getD_cons_zero]
    congr 1

/-- Forward filling preserves length. -/
lemma ffillFrom_length (last : Option ℚ) (l : List (Option ℚ)) :
    (CustomRateBuilder.ffillFrom last l).length = l.length := by
  induction l generalizing last with
  | nil => rfl
  | cons x t ih =>
    cases x <;> simp [CustomRateBuilder.ffillFrom, ih]

/-- Reindexing onto an index yields one cell per index entry. -/
lemma reindexFfill_length (s : RateSeries) (idx : List Nat) :
    (CustomRateBuilder.reindexFfill s idx).length = idx.length := by
  unfold CustomRateBuilder.reindexFfill
  rw [ffillFrom_length, List.length_map]

/-- Within bounds, a zipWith cell is the combination of the two cells. -/
lemma getD_zipWith_optAdd (as bs : List (Option ℚ)) (i : Nat)
    (hlen : bs.length = as.length) (hi : i < as.length) :
    (List.zipWith CustomRateBuilder.optAdd as bs).getD i none
      = CustomRateBuilder.optAdd (as.getD i none) (bs.getD i none) := by
  have hz : i < (List.zipWith CustomRateBuilder.optAdd as bs).length := by
    rw [List.length_zipWith, hlen]
    simpa using hi
  rw [List.getD_eq_getElem _ _ hz, List.getD_eq_getElem _ _ hi,
    List.getD_eq_getElem _ _ (by omega : i < bs.length), List.getElem_zipWith]

/-- A left fold of pointwise additions over equal-length columns computes,
at every position, the fold of that position's cells. -/
lemma foldl_zipWith_pointwise (cols : List (List (Option ℚ))) (init : List (Option ℚ))
    (hlen : ∀ col ∈ cols, col.length = init.length) :
    cols.foldl (fun acc col => List.zipWith CustomRateBuilder.optAdd acc col) init
      = (List.range init.length).map
          (fun i => cols.foldl
            (fun a col => CustomRateBuilder.optAdd a (col.getD i none))
            (init.getD i none)) := by
  induction cols generalizing init with
  | nil =>
    simp only [List.foldl_nil]
    exact (range_map_getD init none).symm
  | cons col cols ih =>
    have hcol : col.length = init.length := hlen col (by simp)
    have hstep : (List.zipWith CustomRateBuilder.optAdd init col).length = init.length := by
      rw [List.length_zipWith, hcol]
      simp
    simp only [List.foldl_cons]
    rw [ih (List.zipWith CustomRateBuilder.optAdd init col)
        (fun c hc => by rw [hstep]; exact hlen c (List.mem_cons_of_mem _ hc)), hstep]
    apply List.map_congr_left
    intro i hi
    rw [List.mem_range] at hi
    congr 1
    exact getD_zipWith_optAdd init col i hcol hi

/-- When every component is registered and fetches a non-empty series,
the first loop of create_weighted_custom_rate keeps every component, in
order, paired with its fractional weight. -/
lemma buildSeriesData_all_nonempty (fetch : String → RateSeries)
    (components : List (String × ℚ))
    (hreg : ∀ c ∈ components, (FRED_SERIES_REGISTRY.lookup c.1).isSome)
    (hne : ∀ c ∈ components, fetch (CustomRateBuilder.seriesIdOf c.1) ≠ []) :
    CustomRateBuilder.buildSeriesData fetch components
      = .ok (components.map fun c =>
          (fetch (CustomRateBuilder.seriesIdOf c.1), c.2 / 100, c.1)) := by
  induction components with
  | nil => rfl
  | cons c t ih =>
    obtain ⟨cname, cweight⟩ := c
    obtain ⟨meta, hmeta⟩ :=
      Option.isSome_iff_exists.mp (hreg (cname, cweight) (by simp))
    have hsid : CustomRateBuilder.seriesIdOf cname = meta.seriesId := by
      unfold CustomRateBuilder.seriesIdOf
      rw [hmeta]
      rfl
    have hdf : fetch meta.seriesId ≠ [] := by
      have h := hne (cname, cweight) (by simp)
      rwa [hsid] at h
    have ih2 := ih (fun x hx => hreg x (List.mem_cons_of_mem _ hx))
      (fun x hx => hne x (List.mem_cons_of_mem _ hx))
    simp only [CustomRateBuilder.buildSeriesData, CustomRateBuilder.registryGet, hmeta,
      ih2, Except_ok_bind, List.map_cons]
    rw [if_neg hdf, hsid]
    rfl

/-- When every component is registered and fetches an empty series, the
first loop of create_weighted_custom_rate keeps nothing. -/
lemma buildSeriesData_all_empty (fetch : String → RateSeries)
    (components : List (String × ℚ))
    (hreg : ∀ c ∈ components, (FRED_SERIES_REGISTRY.lookup c.1).isSome)
    (hempty : ∀ c ∈ components, fetch (CustomRateBuilder.seriesIdOf c.1) = []) :
    CustomRateBuilder.buildSeriesData fetch components = .ok [] := by
  induction components with
  | nil => rfl
  | cons c t ih =>
    obtain ⟨cname, cweight⟩ := c
    obtain ⟨meta, hmeta⟩ :=
      Option.isSome_iff_exists.mp (hreg (cname, cweight) (by simp))
    have hsid : CustomRateBuilder.seriesIdOf cname = meta.seriesId := by
      unfold CustomRateBuilder.seriesIdOf
      rw [hmeta]
      rfl
    have hdf : fetch meta.seriesId = [] := by
      rw [← hsid]
      exact hempty (cname, cweight) (by simp)
    have ih2 := ih (fun x hx => hreg x (List.mem_cons_of_mem _ hx))
      (fun x hx => hempty x (List.mem_cons_of_mem _ hx))
    simp only [CustomRateBuilder.buildSeriesData, CustomRateBuilder.registryGet, hmeta,
      ih2, Except_ok_bind]
    rw [if_pos hdf]
    rfl

/-- create_weighted_custom_rate when the first loop keeps nothing. -/
lemma createWeighted_of_build_nil (fetch : String → RateSeries)
    (components : List (String × ℚ))
    (h : CustomRateBuilder.buildSeriesData fetch components = .ok []) :
    CustomRateBuilder.createWeightedCustomRate fetch components = .ok ([], "") := by
  unfold CustomRateBuilder.createWeightedCustomRate
  rw [h]
  rfl

/-- create_weighted_custom_rate when the first loop fails. -/
lemma createWeighted_of_build_error (fetch : String → RateSeries)
    (components : List (String × ℚ)) (err : PyError)
    (h : CustomRateBuilder.buildSeriesData fetch components = .error err) :
    CustomRateBuilder.createWeightedCustomRate fetch components = .error err := by
  unfold CustomRateBuilder.createWeightedCustomRate
  rw [h]
  rfl

/-- create_weighted_custom_rate when the first loop keeps a non-empty
list of components: the accumulation loop and label join, spelt out. -/
lemma createWeighted_of_build_cons (fetch : String → RateSeries)
    (components : List (String × ℚ)) (s0 : RateSeries × ℚ × String)
    (sd : List (RateSeries × ℚ × String))
    (h : CustomRateBuilder.buildSeriesData fetch components = .ok (s0 :: sd)) :
    CustomRateBuilder.createWeightedCustomRate fetch components
      = .ok ((s0.1.map Prod.fst).zip
               ((s0 :: sd).foldl
                 (fun acc t => List.zipWith CustomRateBuilder.optAdd acc
                   ((CustomRateBuilder.reindexFfill t.1 (s0.1.map Prod.fst)).map
                     (CustomRateBuilder.optScale t.2.1)))
                 ((s0.1.map Prod.fst).map fun _ => some 0)),
             String.intercalate " + "
               ((s0 :: sd).map fun t => CustomRateBuilder.fmtComponent t.2.1 t.2.2)) := by
  unfold CustomRateBuilder.createWeightedCustomRate
  rw [h]
  rfl

/-- The accumulation loop over all components equals the pointwise
weighted sum the specification prescribes. -/
lemma weighted_vals_pointwise (fetch : String → RateSeries)
    (comps : List (String × ℚ)) (baseIdx : List Nat) :
    (comps.map fun c =>
        (fetch (CustomRateBuilder.seriesIdOf c.1), c.2 / 100, c.1)).foldl
        (fun acc t => List.zipWith CustomRateBuilder.optAdd acc
          ((CustomRateBuilder.reindexFfill t.1 baseIdx).map
            (CustomRateBuilder.optScale t.2.1)))
        (baseIdx.map fun _ => some 0)
      = (List.range baseIdx.length).map
          (CustomRateBuilder.specWeightedValue fetch comps baseIdx) := by
  rw [List.foldl_map]
  rw [← List.foldl_map
      (fun c : String × ℚ =>
        (CustomRateBuilder.reindexFfill (fetch (CustomRateBuilder.seriesIdOf c.1))
          baseIdx).map (CustomRateBuilder.optScale (c.2 / 100)))
      (fun acc col => List.zipWith CustomRateBuilder.optAdd acc col)]
  have hlen : ∀ col ∈ comps.map (fun c : String × ℚ =>
      (CustomRateBuilder.reindexFfill (fetch (CustomRateBuilder.seriesIdOf c.1))
        baseIdx).map (CustomRateBuilder.optScale (c.2 / 100))),
      col.length = (baseIdx.map fun _ => (some 0 : Option ℚ)).length := by
    intro col hcol
    obtain ⟨c, _, rfl⟩ := List.mem_map.mp hcol
    rw [List.length_map, reindexFfill_length, List.length_map]
  rw [foldl_zipWith_pointwise _ _ hlen, List.length_map]
  apply List.map_congr_left
  intro i hi
  rw [List.mem_range] at hi
  have hinit : ((baseIdx.map fun _ => (some 0 : Option ℚ)).getD i none) = some 0 := by
    rw [List.getD_eq_getElem _ _ (by rw [List.length_map]; exact hi)]
    exact List.getElem_map _
  rw [hinit]
  unfold CustomRateBuilder.specWeightedValue
  rw [List.foldl_map, List.foldl_map]

/-- The joined label over all components is the label the spec
prescribes, the weights shown as given (w/100*100 = w). -/
lemma weighted_label_spec (fetch : String → RateSeries) (comps : List (String × ℚ)) :
    String.intercalate " + "
        ((comps.map fun c =>
            (fetch (CustomRateBuilder.seriesIdOf c.1), c.2 / 100, c.1)).map
          fun t => CustomRateBuilder.fmtComponent t.2.1 t.2.2)
      = CustomRateBuilder.specWeightedLabel comps := by
  unfold CustomRateBuilder.specWeightedLabel
  congr 1
  rw [List.map_map]
  apply List.map_congr_left
  intro c _
  simp only [Function.comp_apply]
  unfold CustomRateBuilder.fmtComponent
  rw [div_mul_cancel₀ c.2 (by norm_num : (100 : ℚ) ≠ 0)]

/-- Claim C6: for a non-empty component list whose rates are all
registered and all fetch non-empty series, create_weighted_custom_rate
returns the series indexed by the first component's date index whose value
at each position is the sum over components of (weight/100) x (component
value reindexed onto that index, forward-filled), with the label
"w1% name1 + w2% name2 + ..."; and when every component fetches no data it
returns an empty series and an empty label. -/
theorem create_weighted_custom_rate_spec (fetch : String → RateSeries)
    (components : List (String × ℚ))
    (hreg : ∀ c ∈ components, (FRED_SERIES_REGISTRY.lookup c.1).isSome) :
    (∀ c0 rest, components = c0 :: rest →
      (∀ c ∈ components, fetch (CustomRateBuilder.seriesIdOf c.1) ≠ []) →
      CustomRateBuilder.createWeightedCustomRate fetch components
        = .ok (CustomRateBuilder.specWeightedSeries fetch components
                 ((fetch (CustomRateBuilder.seriesIdOf c0.1)).map Prod.fst),
               CustomRateBuilder.specWeightedLabel components))
    ∧ ((∀ c ∈ components, fetch (CustomRateBuilder.seriesIdOf c.1) = []) →
      CustomRateBuilder.createWeightedCustomRate fetch components = .ok ([], "")) := by
  constructor
  · rintro c0 rest rfl hne
    have hbuild := buildSeriesData_all_nonempty fetch (c0 :: rest) hreg hne
    rw [List.map_cons] at hbuild
    rw [createWeighted_of_build_cons fetch (c0 :: rest) _ _ hbuild]
    have hvals := weighted_vals_pointwise fetch (c0 :: rest)
      ((fetch (CustomRateBuilder.seriesIdOf c0.1)).map Prod.fst)
    have hlabel := weighted_label_spec fetch (c0 :: rest)
    rw [List.map_cons] at hvals hlabel
    rw [hvals, hlabel]
    rfl
  · intro hempty
    exact createWeighted_of_build_nil fetch components
      (buildSeriesData_all_empty fetch components hreg hempty)

/-- Witness for C6: 60% Prime Rate + 40% SOFR, both series defined on
date 0; the hypotheses are discharged on this concrete input and the
theorem applied to it. -/
theorem create_weighted_custom_rate_spec_witness :
    (∀ c ∈ ([("Prime Rate", 60), ("SOFR", 40)] : List (String × ℚ)),
        (FRED_SERIES_REGISTRY.lookup c.1).isSome)
    ∧ (∀ c ∈ ([("Prime Rate", 60), ("SOFR", 40)] : List (String × ℚ)),
        (fun sid => if sid = "MPRIME" then [((0 : Nat), (5 : ℚ))]
          else if sid = "SOFR" then [(0, 3)] else [])
          (CustomRateBuilder.seriesIdOf c.1) ≠ [])
    ∧ CustomRateBuilder.createWeightedCustomRate
        (fun sid => if sid = "MPRIME" then [((0 : Nat), (5 : ℚ))]
          else if sid = "SOFR" then [(0, 3)] else [])
        [("Prime Rate", 60), ("SOFR", 40)]
        = .ok (CustomRateBuilder.specWeightedSeries
                 (fun sid => if sid = "MPRIME" then [((0 : Nat), (5 : ℚ))]
                   else if sid = "SOFR" then [(0, 3)] else [])
                 [("Prime Rate", 60), ("SOFR", 40)]
                 (((fun sid => if sid = "MPRIME" then [((0 : Nat), (5 : ℚ))]
                     else if sid = "SOFR" then [(0, 3)] else [])
                   (CustomRateBuilder.seriesIdOf ("Prime Rate", (60 : ℚ)).1)).map Prod.fst),
               CustomRateBuilder.specWeightedLabel [("Prime Rate", 60), ("SOFR", 40)]) :=
  ⟨by decide, by decide,
    (create_weighted_custom_rate_spec
      (fun sid => if sid = "MPRIME" then [((0 : Nat), (5 : ℚ))]
        else if sid = "SOFR" then [(0, 3)] else [])
      [("Prime Rate", 60), ("SOFR", 40)] (by decide)).1
      ("Prime Rate", 60) [("SOFR", 40)] rfl (by decide)⟩

/-- pure on Except is a successful result. -/
lemma Except_pure_eq_ok {e a : Type} (x : a) : (pure x : Except e a) = Except.ok x := rfl

/-- A key that is not among the keys has no lookup result. -/
lemma lookup_eq_none_of_not_mem {b : Type} (l : List (String × b)) (k : String)
    (h : k ∉ l.map Prod.fst) : l.lookup k = none := by
  induction l with
  | nil => rfl
  | cons p t ih =>
    obtain ⟨a, w⟩ := p
    simp only [List.map_cons, List.mem_cons, not_or] at h
    rw [List.lookup_cons, beq_eq_false_iff_ne.mpr h.1]
    exact ih h.2

/-- A successful lookup finds its key among the keys. -/
lemma mem_keys_of_lookup {b : Type} (l : List (String × b)) (k : String) (v : b)
    (h : l.lookup k = some v) : k ∈ l.map Prod.fst := by
  induction l with
  | nil => simp [List.lookup] at h
  | cons p t ih =>
    obtain ⟨a, w⟩ := p
    rw [List.lookup_cons] at h
    by_cases hk : k = a
    · simp [hk]
    · rw [beq_eq_false_iff_ne.mpr hk] at h
      simp only [List.map_cons, List.mem_cons]
      exact Or.inr (ih h)

/-- A key among the keys has a lookup result. -/
lemma lookup_isSome_of_mem {b : Type} (l : List (String × b)) (k : String)
    (h : k ∈ l.map Prod.fst) : ∃ v, l.lookup k = some v := by
  induction l with
  | nil => simp at h
  | cons p t ih =>
    obtain ⟨a, w⟩ := p
    rw [List.lookup_cons]
    by_cases hk : k = a
    · exact ⟨w, by rw [beq_iff_eq.mpr hk]⟩
    · rw [beq_eq_false_iff_ne.mpr hk]
      apply ih
      simp only [List.map_cons, List.mem_cons] at h
      exact h.resolve_left hk

/-- The operation if-chain never turns a non-empty base series into an
empty one (and conversely). -/
lemma applyOp_eq_nil_iff (operation : String) (base : RateSeries) (v : ℚ) :
    CustomRateBuilder.applyOp operation base v = [] ↔ base = [] := by
  unfold CustomRateBuilder.applyOp
  split_ifs <;> simp

/-- create_simple_custom_rate on an unregistered base rate raises the
KeyError of the registry lookup. -/
lemma createSimple_of_unregistered (fetch : String → RateSeries)
    (baseRate operation : String) (v : ℚ)
    (h : FRED_SERIES_REGISTRY.lookup baseRate = none) :
    CustomRateBuilder.createSimpleCustomRate fetch baseRate operation v
      = .error (.keyError baseRate) := by
  unfold CustomRateBuilder.createSimpleCustomRate CustomRateBuilder.registryGet
  rw [h]
  rfl

/-- create_simple_custom_rate on a registered base rate whose series is
empty returns the empty series and empty label. -/
lemma createSimple_of_empty (fetch : String → RateSeries)
    (baseRate operation : String) (v : ℚ) (meta : FredMeta)
    (hmeta : FRED_SERIES_REGISTRY.lookup baseRate = some meta)
    (hdf : fetch meta.seriesId = []) :
    CustomRateBuilder.createSimpleCustomRate fetch baseRate operation v = .ok ([], "") := by
  simp only [CustomRateBuilder.createSimpleCustomRate, CustomRateBuilder.registryGet,
    hmeta, Except_ok_bind]
  rw [if_pos hdf]
  rfl

/-- create_simple_custom_rate on a registered base rate with data and an
operation absent from label_map raises the KeyError of that lookup. -/
lemma createSimple_of_bad_op (fetch : String → RateSeries)
    (baseRate operation : String) (v : ℚ) (meta : FredMeta)
    (hmeta : FRED_SERIES_REGISTRY.lookup baseRate = some meta)
    (hdf : fetch meta.seriesId ≠ [])
    (hsym : CustomRateBuilder.labelMap.lookup operation = none) :
    CustomRateBuilder.createSimpleCustomRate fetch baseRate operation v
      = .error (.keyError operation) := by
  simp only [CustomRateBuilder.createSimpleCustomRate, CustomRateBuilder.registryGet,
    hmeta, Except_ok_bind]
  rw [if_neg hdf, hsym]
  rfl

/-- create_simple_custom_rate on a registered base rate with data and a
known operation returns the transformed series and its label. -/
lemma createSimple_of_nonempty (fetch : String → RateSeries)
    (baseRate operation : String) (v : ℚ) (meta : FredMeta) (symbol : String)
    (hmeta : FRED_SERIES_REGISTRY.lookup baseRate = some meta)
    (hdf : fetch meta.seriesId ≠ [])
    (hsym : CustomRateBuilder.labelMap.lookup operation = some symbol) :
    CustomRateBuilder.createSimpleCustomRate fetch baseRate operation v
      = .ok (CustomRateBuilder.applyOp operation (fetch meta.seriesId) v,
             baseRate ++ " " ++ symbol ++ " " ++ toString v) := by
  simp only [CustomRateBuilder.createSimpleCustomRate, CustomRateBuilder.registryGet,
    hmeta, Except_ok_bind]
  rw [if_neg hdf, hsym]
  rfl

/-- If some component is unregistered, the component loop raises a
KeyError for an unregistered name (the first such encountered). -/
lemma buildSeriesData_error_unreg (fetch : String → RateSeries)
    (components : List (String × ℚ))
    (h : ∃ c ∈ components, c.1 ∉ FRED_SERIES_REGISTRY.map Prod.fst) :
    ∃ k, k ∉ FRED_SERIES_REGISTRY.map Prod.fst ∧
      CustomRateBuilder.buildSeriesData fetch components = .error (.keyError k) := by
  induction components with
  | nil =>
    obtain ⟨c, hc, _⟩ := h
    exact absurd hc (by simp)
  | cons c t ih =>
    obtain ⟨cn, cw⟩ := c
    by_cases hmem : cn ∈ FRED_SERIES_REGISTRY.map Prod.fst
    · obtain ⟨x, hx, hxk⟩ := h
      rcases List.mem_cons.mp hx with rfl | hx'
      · exact absurd hmem hxk
      · obtain ⟨k, hk, herr⟩ := ih ⟨x, hx', hxk⟩
        obtain ⟨meta, hv⟩ := lookup_isSome_of_mem _ cn hmem
        refine ⟨k, hk, ?_⟩
        simp only [CustomRateBuilder.buildSeriesData, CustomRateBuilder.registryGet,
          hv, Except_ok_bind]
        rw [herr, Except_error_bind]
    · refine ⟨cn, hmem, ?_⟩
      have hnone := lookup_eq_none_of_not_mem FRED_SERIES_REGISTRY cn hmem
      simp only [CustomRateBuilder.buildSeriesData, CustomRateBuilder.registryGet,
        hnone, Except_error_bind]

/-- What a successful component loop implies: every component registered,
every kept series non-empty, and an empty result means every component
fetched an empty series. -/
lemma buildSeriesData_ok_inversion (fetch : String → RateSeries)
    (components : List (String × ℚ)) (sd : List (RateSeries × ℚ × String))
    (h : CustomRateBuilder.buildSeriesData fetch components = .ok sd) :
    (∀ c ∈ components, c.1 ∈ FRED_SERIES_REGISTRY.map Prod.fst)
    ∧ (∀ e ∈ sd, e.1 ≠ [])
    ∧ (sd = [] → ∀ c ∈ components, fetch (CustomRateBuilder.seriesIdOf c.1) = []) := by
  induction components generalizing sd with
  | nil =>
    have hsd : ([] : List (RateSeries × ℚ × String)) = sd := by
      simp only [CustomRateBuilder.buildSeriesData] at h
      injection h
    subst hsd
    exact ⟨by simp, by simp, by simp⟩
  | cons c t ih =>
    obtain ⟨cn, cw⟩ := c
    cases hlook : FRED_SERIES_REGISTRY.lookup cn with
    | none =>
      simp only [CustomRateBuilder.buildSeriesData, CustomRateBuilder.registryGet,
        hlook, Except_error_bind] at h
      exact Except.noConfusion h
    | some meta =>
      simp only [CustomRateBuilder.buildSeriesData, CustomRateBuilder.registryGet,
        hlook, Except_ok_bind] at h
      have hmem := mem_keys_of_lookup _ _ _ hlook
      have hsid : CustomRateBuilder.seriesIdOf cn = meta.seriesId := by
        unfold CustomRateBuilder.seriesIdOf
        rw [hlook]
        rfl
      cases hb : CustomRateBuilder.buildSeriesData fetch t with
      | error e =>
        rw [hb, Except_error_bind] at h
        exact Except.noConfusion h
      | ok tail =>
        rw [hb, Except_ok_bind, Except_pure_eq_ok] at h
        have h2 : (if fetch meta.seriesId = [] then tail
            else (fetch meta.seriesId, cw / 100, cn) :: tail) = sd := by
          injection h
        obtain ⟨ht1, ht2, ht3⟩ := ih tail hb
        by_cases hdf : fetch meta.seriesId = []
        · rw [if_pos hdf] at h2
          subst h2
          refine ⟨?_, ht2, ?_⟩
          · intro x hx
            rcases List.mem_cons.mp hx with rfl | hx'
            · exact hmem
            · exact ht1 x hx'
          · intro hsd x hx
            rcases List.mem_cons.mp hx with rfl | hx'
            · show fetch (CustomRateBuilder.seriesIdOf cn) = []
              rw [hsid]
              exact hdf
            · exact ht3 hsd x hx'
        · rw [if_neg hdf] at h2
          subst h2
          refine ⟨?_, ?_, ?_⟩
          · intro x hx
            rcases List.mem_cons.mp hx with rfl | hx'
            · exact hmem
            · exact ht1 x hx'
          · intro e he
            rcases List.mem_cons.mp he with rfl | he'
            · exact hdf
            · exact ht2 e he'
          · intro hsd
            exact absurd hsd (by simp)

/-- The accumulation loop yields one value per base-index entry. -/
lemma weighted_foldl_length (sdl : List (RateSeries × ℚ × String)) (baseIdx : List Nat) :
    (sdl.foldl
      (fun acc t => List.zipWith CustomRateBuilder.optAdd acc
        ((CustomRateBuilder.reindexFfill t.1 baseIdx).map
          (CustomRateBuilder.optScale t.2.1)))
      (baseIdx.map fun _ => some 0)).length = baseIdx.length := by
  rw [← List.foldl_map
      (fun t : RateSeries × ℚ × String =>
        (CustomRateBuilder.reindexFfill t.1 baseIdx).map
          (CustomRateBuilder.optScale t.2.1))
      (fun acc col => List.zipWith CustomRateBuilder.optAdd acc col)]
  have hl : ∀ col ∈ sdl.map (fun t : RateSeries × ℚ × String =>
      (CustomRateBuilder.reindexFfill t.1 baseIdx).map
        (CustomRateBuilder.optScale t.2.1)),
      col.length = (baseIdx.map fun _ => (some 0 : Option ℚ)).length := by
    intro col hcol
    obtain ⟨t, _, rfl⟩ := List.mem_map.mp hcol
    rw [List.length_map, reindexFfill_length, List.length_map]
  rw [foldl_zipWith_pointwise _ _ hl, List.length_map, List.length_range, List.length_map]

/-- Claim C10: a base rate name that is not one of the 11 registry keys
makes create_simple_custom_rate raise that key's KeyError, and a component
list naming such a rate makes create_weighted_custom_rate raise an
unregistered key's KeyError; the empty-series/empty-label result is
reached only for registered names whose fetched series are empty. -/
theorem custom_rate_registry_errors (fetch : String → RateSeries)
    (name operation : String) (v : ℚ) (components : List (String × ℚ)) :
    (name ∉ FRED_SERIES_REGISTRY.map Prod.fst →
      CustomRateBuilder.createSimpleCustomRate fetch name operation v
        = .error (.keyError name))
    ∧ ((∃ c ∈ components, c.1 ∉ FRED_SERIES_REGISTRY.map Prod.fst) →
      ∃ k, k ∉ FRED_SERIES_REGISTRY.map Prod.fst ∧
        CustomRateBuilder.createWeightedCustomRate fetch components
          = .error (.keyError k))
    ∧ (CustomRateBuilder.createSimpleCustomRate fetch name operation v = .ok ([], "") →
      name ∈ FRED_SERIES_REGISTRY.map Prod.fst
        ∧ fetch (CustomRateBuilder.seriesIdOf name) = [])
    ∧ (CustomRateBuilder.createWeightedCustomRate fetch components = .ok ([], "") →
      ∀ c ∈ components, c.1 ∈ FRED_SERIES_REGISTRY.map Prod.fst
        ∧ fetch (CustomRateBuilder.seriesIdOf c.1) = []) := by
  refine ⟨?_, ?_, ?_, ?_⟩
  · intro h
    exact createSimple_of_unregistered fetch name operation v
      (lookup_eq_none_of_not_mem _ _ h)
  · intro h
    obtain ⟨k, hk, herr⟩ := buildSeriesData_error_unreg fetch components h
    exact ⟨k, hk, createWeighted_of_build_error fetch components _ herr⟩
  · intro h
    cases hlook : FRED_SERIES_REGISTRY.lookup name with
    | none =>
      rw [createSimple_of_unregistered fetch name operation v hlook] at h
      exact Except.noConfusion h
    | some meta =>
      have hmem := mem_keys_of_lookup _ _ _ hlook
      have hsid : CustomRateBuilder.seriesIdOf name = meta.seriesId := by
        unfold CustomRateBuilder.seriesIdOf
        rw [hlook]
        rfl
      by_cases hdf : fetch meta.seriesId = []
      · refine ⟨hmem, ?_⟩
        rw [hsid]
        exact hdf
      · exfalso
        cases hsym : CustomRateBuilder.labelMap.lookup operation with
        | none =>
          rw [createSimple_of_bad_op fetch name operation v meta hlook hdf hsym] at h
          exact Except.noConfusion h
        | some symbol =>
          rw [createSimple_of_nonempty fetch name operation v meta symbol
            hlook hdf hsym] at h
          have h2 : (CustomRateBuilder.applyOp operation (fetch meta.seriesId) v,
              name ++ " " ++ symbol ++ " " ++ toString v) = (([] : RateSeries), "") := by
            injection h
          have h3 : CustomRateBuilder.applyOp operation (fetch meta.seriesId) v = [] :=
            congrArg Prod.fst h2
          exact hdf ((applyOp_eq_nil_iff operation (fetch meta.seriesId) v).mp h3)
  · intro h
    cases hb : CustomRateBuilder.buildSeriesData fetch components with
    | error e =>
      rw [createWeighted_of_build_error fetch components e hb] at h
      exact Except.noConfusion h
    | ok sd =>
      obtain ⟨hkeys, hne, hnil⟩ := buildSeriesData_ok_inversion fetch components sd hb
      cases sd with
      | nil =>
        intro c hc
        exact ⟨hkeys c hc, hnil rfl c hc⟩
      | cons s0 rest =>
        exfalso
        rw [createWeighted_of_build_cons fetch components s0 rest hb] at h
        have h2 : ((s0.1.map Prod.fst).zip
              ((s0 :: rest).foldl
                (fun acc t => List.zipWith CustomRateBuilder.optAdd acc
                  ((CustomRateBuilder.reindexFfill t.1 (s0.1.map Prod.fst)).map
                    (CustomRateBuilder.optScale t.2.1)))
                ((s0.1.map Prod.fst).map fun _ => some 0)),
              String.intercalate " + "
                ((s0 :: rest).map fun t => CustomRateBuilder.fmtComponent t.2.1 t.2.2))
            = (([] : List (Nat × Option ℚ)), "") := by
          injection h
        have hzip := congrArg Prod.fst h2
        have hzl := congrArg List.length hzip
        rw [List.length_zip, weighted_foldl_length (s0 :: rest) (s0.1.map Prod.fst)] at hzl
        simp only [min_self, List.length_map] at hzl
        exact hne s0 (by simp) (List.eq_nil_of_length_eq_zero (by simpa using hzl))

/-- Witness for C10: the name "Bogus" is not registered; both builders are
evaluated on it. -/
theorem custom_rate_registry_errors_witness :
    ("Bogus" ∉ FRED_SERIES_REGISTRY.map Prod.fst)
    ∧ CustomRateBuilder.createSimpleCustomRate (fun _ => []) "Bogus" "Add" 1
        = .error (.keyError "Bogus")
    ∧ (∃ k, k ∉ FRED_SERIES_REGISTRY.map Prod.fst ∧
        CustomRateBuilder.createWeightedCustomRate (fun _ => []) [("Bogus", 50)]
          = .error (.keyError k)) :=
  ⟨by decide,
   (custom_rate_registry_errors (fun _ => []) "Bogus" "Add" 1 [("Bogus", 50)]).1
     (by decide),
   (custom_rate_registry_errors (fun _ => []) "Bogus" "Add" 1 [("Bogus", 50)]).2.1
     ⟨("Bogus", 50), by decide, by decide⟩⟩
